import Mathlib

/-!
# WebRTC consumer client — shallow embedding and verification

This file embeds the signaling/negotiation core of `src/src/App.tsx`
(a React WebRTC viewer client) as executable Lean definitions, and proves
or refutes the specification's claims about it.

Modelling conventions:
* `RTCPeerConnection` objects live in a heap `pcs : List PC`, indexed by
  allocation order; the streamer registry `streamers` is an association
  list mapping a streamer id to the index of its peer connection, mirroring
  the JavaScript `Map<number, RTCPeerConnection>` whose entries reference
  heap objects.  Closing a connection marks `closed := true` on the heap
  object; deleting a registry entry drops the reference but the object
  (like the JS object) remains observable in the heap.
* `addEventListener` calls are recorded as per-event listener counts on the
  `PC`; the nonstandard `pc.eventListeners` expando property read by
  `sendSubscribe` is modelled as an `Option Flags` field that no code ever
  assigns (it stays `none`, i.e. `undefined`).
* The `log` helper appends to both the UI log feed (`logs`) and the browser
  console (`console`); bare `console.log`/`console.error` calls append to
  `console` only.
* Awaited WebRTC calls that can throw (`setRemoteDescription`,
  `createAnswer`, `setLocalDescription`, `addIceCandidate`) take an explicit
  failure oracle; a thrown step performs no state change of its own and
  control jumps to the enclosing `catch`.
* `setTimeout`/`clearTimeout` for the 5-second connect timeout are modelled
  by a `timerArmed` flag: `clearTimeout` disarms it, and the timeout event
  can only fire while armed (firing disarms it).
-/

namespace WebRTCClient

/-- Connection status enum from the source. -/
inductive ConnectionStatus where
  | Disconnected
  | Connecting
  | Connected
  | ConnectionError
deriving DecidableEq, Repr

/-- The `ConnectionStatusToStr` helper from the source. -/
def ConnectionStatusToStr (cs : ConnectionStatus) : String :=
  if cs = ConnectionStatus.Disconnected then "disconnected"
  else if cs = ConnectionStatus.Connecting then "connecting"
  else if cs = ConnectionStatus.Connected then "connected"
  else if cs = ConnectionStatus.ConnectionError then "connection error"
  else "not known"

/-- The shape of the nonstandard `pc.eventListeners` object that
`sendSubscribe` reads (one flag per event name it checks). -/
structure Flags where
  icecandidate : Bool
  connectionstatechange : Bool
  track : Bool
deriving DecidableEq, Repr

/-- One `RTCPeerConnection` heap object.  Listener counts record how many
times `addEventListener` was invoked for each event name; `eventListeners`
is the nonstandard expando property (never assigned by the source, hence
`none` ≈ `undefined`). -/
structure PC where
  eventListeners : Option Flags
  iceListeners : Nat
  cscListeners : Nat
  trackListeners : Nat
  remoteDesc : Option Nat
  localDesc : Option Nat
  candidates : List Nat
  closed : Bool
deriving DecidableEq, Repr

/-- The result of `new RTCPeerConnection(peerConfig)`. -/
def newPeerConnection : PC :=
  { eventListeners := none
    iceListeners := 0
    cscListeners := 0
    trackListeners := 0
    remoteDesc := none
    localDesc := none
    candidates := []
    closed := false }

/-- Payload of an outbound signaling message (before `sendToPeer` adds the
`target` field).  SDP blobs and ICE candidates are abstracted as `Nat`. -/
inductive OutData where
  | answer (sdp : Nat)
  | iceCandidate (candidate : Nat)
  | subscribe
deriving DecidableEq, Repr

/-- An outbound message as sent on the wire: payload plus `target`. -/
structure OutMsg where
  target : Nat
  data : OutData
deriving DecidableEq, Repr

/-- Inbound `connect` message. -/
structure ConnectMessage where
  id : Nat
  streamers : List Nat
deriving DecidableEq, Repr

/-- Inbound `new-streamer` message. -/
structure NewStreamerMessage where
  streamer_id : Nat
deriving DecidableEq, Repr

/-- Inbound `streamer-disconnected` message. -/
structure DisconnectedMessage where
  streamer_id : Nat
deriving DecidableEq, Repr

/-- Inbound `offer` message (SDP abstracted as `Nat`). -/
structure OfferMessage where
  sdp : Nat
  sender : Nat
deriving DecidableEq, Repr

/-- Inbound `ice-candidate` message (candidate abstracted as `Nat`). -/
structure CandidateMessage where
  candidate : Nat
  sender : Nat
deriving DecidableEq, Repr

/-- Decoded inbound signaling envelope (tagged union over the message
types, with `unknown` for an unrecognised `type` tag). -/
inductive SignalingMessage where
  | connect (m : ConnectMessage)
  | newStreamer (m : NewStreamerMessage)
  | streamerDisconnected (m : DisconnectedMessage)
  | offer (m : OfferMessage)
  | iceCandidate (m : CandidateMessage)
  | unknown (tag : String)
deriving DecidableEq, Repr

/-- The `WebSocket.OPEN` ready state. -/
def wsOPEN : Nat := 1

/-- The connect-attempt timeout budget in milliseconds (`setTimeout` delay). -/
def connectTimeoutMs : Nat := 5000

/-- The whole client state: the peer-connection heap, the streamer registry
(assoc list id ↦ heap index), the UI snapshot of streamer ids, the UI log
feed, the browser console, the outbound wire, the connection status, the
assigned client id, the WebSocket handle (`some readyState` when
`webSocketRef.current` is non-null), and the connect-timeout timer. -/
structure AppState where
  pcs : List PC
  streamers : List (Nat × Nat)
  streamerIds : List Nat
  logs : List String
  console : List String
  sent : List OutMsg
  status : ConnectionStatus
  clientId : Nat
  wsRef : Option Nat
  timerArmed : Bool
deriving DecidableEq, Repr

/-- Fresh application state (all React refs/state at their initial values). -/
def initialState : AppState :=
  { pcs := []
    streamers := []
    streamerIds := []
    logs := []
    console := []
    sent := []
    status := ConnectionStatus.Disconnected
    clientId := 0
    wsRef := none
    timerArmed := false }

/-- The `Map.has` operation on the registry assoc list. -/
def mapHas (l : List (Nat × Nat)) (k : Nat) : Bool :=
  l.any (fun p => p.1 == k)

/-- The `Map.get` operation on the registry assoc list (first match, like a JS `Map`
whose keys are unique). -/
def mapGet (l : List (Nat × Nat)) (k : Nat) : Option Nat :=
  l.lookup k

/-- The `Map.set` operation on the registry assoc list: replace in place when the key is
present, append otherwise. -/
def mapSet (l : List (Nat × Nat)) (k v : Nat) : List (Nat × Nat) :=
  if mapHas l k then l.map (fun p => if p.1 == k then (k, v) else p)
  else l ++ [(k, v)]

/-- The `Map.delete` operation on the registry assoc list. -/
def mapDelete (l : List (Nat × Nat)) (k : Nat) : List (Nat × Nat) :=
  l.filter (fun p => p.1 != k)

/-- Update the element at index `i` (no-op when out of range), used to
mutate one heap object in place. -/
def listModify : List PC → Nat → (PC → PC) → List PC
  | [], _, _ => []
  | x :: xs, 0, f => f x :: xs
  | x :: xs, n + 1, f => x :: listModify xs n f

/-- Mutate the peer connection at heap index `i`. -/
def modifyPC (st : AppState) (i : Nat) (f : PC → PC) : AppState :=
  { st with pcs := listModify st.pcs i f }

/-- The `log` helper: appends to the UI log feed and to the console. -/
def log (st : AppState) (entry : String) : AppState :=
  { st with logs := st.logs ++ [entry], console := st.console ++ [entry] }

/-- A bare `console.log` / `console.error` call. -/
def consoleLog (st : AppState) (entry : String) : AppState :=
  { st with console := st.console ++ [entry] }

/-- The `updateStreamerIds` helper: publish the registry's key snapshot to the UI. -/
def updateStreamerIds (st : AppState) : AppState :=
  { st with streamerIds := st.streamers.map Prod.fst }

/-- The `sendToPeer` helper: if the WebSocket handle is present and open, serialise
`{...data, target}` onto the wire (plus a console trace); otherwise log
that sending is impossible. -/
def sendToPeer (st : AppState) (target : Nat) (data : OutData) : AppState :=
  match st.wsRef with
  | some rs =>
      if rs = wsOPEN then
        { st with sent := st.sent ++ [{ target := target, data := data }]
                  console := st.console ++ ["Sent to peer " ++ toString target] }
      else log st "Cannot send message: WebSocket not connected"
  | none => log st "Cannot send message: WebSocket not connected"

/-- The body of the `forEach` loop of `handleConnectMessage`: create a registry entry with a
fresh peer connection for `streamerId` unless one already exists. -/
def connectUpsert (st : AppState) (streamerId : Nat) : AppState :=
  if mapHas st.streamers streamerId then st
  else
    let st1 := log st ("Creating connection with streamer " ++ toString streamerId)
    let i := st1.pcs.length
    let st2 := { st1 with pcs := st1.pcs ++ [newPeerConnection] }
    { st2 with streamers := mapSet st2.streamers streamerId i }

/-- The `connect` handler `handleConnectMessage`: store the assigned client id, upsert every
roster entry, refresh the UI snapshot, log the assignment. -/
def handleConnectMessage (st : AppState) (message : ConnectMessage) : AppState :=
  let st1 := { st with clientId := message.id }
  let st2 := message.streamers.foldl connectUpsert st1
  let st3 := updateStreamerIds st2
  log st3 ("Assigned clientId: " ++ toString message.id)

/-- The `new-streamer` handler `handleNewStreamer`: upsert the announced streamer id (no-op when the
id is already registered). -/
def handleNewStreamer (st : AppState) (message : NewStreamerMessage) : AppState :=
  let streamerId := message.streamer_id
  if mapHas st.streamers streamerId then st
  else
    let st1 := log st ("New Streamer " ++ toString streamerId)
    let i := st1.pcs.length
    let st2 := { st1 with pcs := st1.pcs ++ [newPeerConnection] }
    let st3 := { st2 with streamers := mapSet st2.streamers streamerId i }
    updateStreamerIds st3

/-- The `streamer-disconnected` handler `handleStreamerDisconnection`: when the id is registered, close its
peer connection, delete the entry, refresh the UI snapshot and log;
otherwise do nothing. -/
def handleStreamerDisconnection (st : AppState) (message : DisconnectedMessage) :
    AppState :=
  let streamerId := message.streamer_id
  if mapHas st.streamers streamerId then
    let st1 :=
      match mapGet st.streamers streamerId with
      | some i => modifyPC st i (fun pc => { pc with closed := true })
      | none => st
    let st2 := { st1 with streamers := mapDelete st1.streamers streamerId }
    let st3 := updateStreamerIds st2
    log st3 ("Streamer " ++ toString streamerId ++ " disconnected")
  else st

/-- Which awaited step of `handleOffer`'s negotiation sequence throws. -/
inductive OfferStep where
  | remoteDescStep
  | createAnswerStep
  | localDescStep
deriving DecidableEq, Repr

/-- The `offer` handler `handleOffer`: log receipt; for a registered sender, attach the three
event listeners, then apply the remote offer, create an answer
(`answerSdp` is the engine's result), apply it locally and send it to the
sender — any throwing step (`fail`) jumps to the `catch`, which only logs;
for an unknown sender, just log. -/
def handleOffer (st : AppState) (message : OfferMessage)
    (fail : Option OfferStep) (answerSdp : Nat) : AppState :=
  let streamerId := message.sender
  let st0 := log st ("Offer received from streamer " ++ toString streamerId)
  let st0 := consoleLog st0 "Offer received. Current streamers:"
  if mapHas st0.streamers streamerId then
    match mapGet st0.streamers streamerId with
    | none => st0
    | some i =>
        let st1 := modifyPC st0 i (fun pc => { pc with iceListeners := pc.iceListeners + 1 })
        let st2 := modifyPC st1 i (fun pc => { pc with cscListeners := pc.cscListeners + 1 })
        let st3 := modifyPC st2 i (fun pc => { pc with trackListeners := pc.trackListeners + 1 })
        match fail with
        | some OfferStep.remoteDescStep =>
            let stE := log st3 "Error processing offer: error"
            consoleLog stE "Error processing offer:"
        | some OfferStep.createAnswerStep =>
            let st4 := modifyPC st3 i (fun pc => { pc with remoteDesc := some message.sdp })
            let stE := log st4 "Error processing offer: error"
            consoleLog stE "Error processing offer:"
        | some OfferStep.localDescStep =>
            let st4 := modifyPC st3 i (fun pc => { pc with remoteDesc := some message.sdp })
            let stE := log st4 "Error processing offer: error"
            consoleLog stE "Error processing offer:"
        | none =>
            let st4 := modifyPC st3 i (fun pc => { pc with remoteDesc := some message.sdp })
            let st5 := modifyPC st4 i (fun pc => { pc with localDesc := some answerSdp })
            sendToPeer st5 streamerId (OutData.answer answerSdp)
  else
    log st0 ("Received offer from unknown streamer " ++ toString streamerId)

/-- The `ice-candidate` handler `handleIceCandidate`: for a registered sender, add the candidate to its
peer connection (a throwing `addIceCandidate` only logs); for an unknown
sender, trace to the console only. -/
def handleIceCandidate (st : AppState) (message : CandidateMessage)
    (fail : Bool) : AppState :=
  let streamerId := message.sender
  if mapHas st.streamers streamerId then
    match mapGet st.streamers streamerId with
    | none => st
    | some i =>
        if fail then
          let stE := log st "Error adding ICE candidate: error"
          consoleLog stE "Error adding ICE candidate:"
        else
          modifyPC st i (fun pc => { pc with candidates := pc.candidates ++ [message.candidate] })
  else
    consoleLog st ("Received ICE candidate for unknown streamer " ++ toString streamerId)

/-- The router `handleSignalingMessage`: trace the envelope, then dispatch by tag
(unknown tags only trace).  The oracles parameterise the fallible awaited
calls inside `handleOffer` / `handleIceCandidate`. -/
def handleSignalingMessage (st : AppState) (message : SignalingMessage)
    (offerFail : Option OfferStep) (answerSdp : Nat) (iceFail : Bool) : AppState :=
  let st0 := consoleLog st "Received message:"
  let st0 := consoleLog st0 "Current streamers:"
  match message with
  | SignalingMessage.connect m => handleConnectMessage st0 m
  | SignalingMessage.offer m => handleOffer st0 m offerFail answerSdp
  | SignalingMessage.newStreamer m => handleNewStreamer st0 m
  | SignalingMessage.streamerDisconnected m => handleStreamerDisconnection st0 m
  | SignalingMessage.iceCandidate m => handleIceCandidate st0 m iceFail
  | SignalingMessage.unknown tag => consoleLog st0 ("Unknown message type: " ++ tag)

/-- The subscribe action `sendSubscribe`: for a registered streamer, attach any of the three
listeners whose flag in the (never-populated) `pc.eventListeners` expando
is unset, then send a `subscribe` message and log; for an unknown id, log
"not found". -/
def sendSubscribe (st : AppState) (streamerId : Nat) : AppState :=
  if mapHas st.streamers streamerId then
    let stL :=
      match mapGet st.streamers streamerId with
      | none => st
      | some i =>
          match st.pcs.get? i with
          | none => st
          | some pc =>
              let existingListeners :=
                pc.eventListeners.getD
                  { icecandidate := false, connectionstatechange := false, track := false }
              let st1 :=
                if existingListeners.icecandidate then st
                else modifyPC st i (fun pc => { pc with iceListeners := pc.iceListeners + 1 })
              let st2 :=
                if existingListeners.connectionstatechange then st1
                else modifyPC st1 i (fun pc => { pc with cscListeners := pc.cscListeners + 1 })
              if existingListeners.track then st2
              else modifyPC st2 i (fun pc => { pc with trackListeners := pc.trackListeners + 1 })
    let stS := sendToPeer stL streamerId OutData.subscribe
    log stS ("Subscribe sent to peer " ++ toString streamerId)
  else
    log st ("Streamer " ++ toString streamerId ++ " not found")

/-- The `handleConnect` action (the Connect/Disconnect button).  With a non-null
WebSocket handle while `Connected`/`Connecting` it disconnects: close the
channel, clear the handle, set `Disconnected`, close every registered peer
connection, clear the registry.  Otherwise it is a no-op while
`Connecting`, and else starts a fresh attempt: status `Connecting`, arm
the 5-second timeout, construct the socket (`createFails` models the
`new WebSocket` constructor throwing, which the `catch` turns into
`ConnectionError`). -/
def handleConnect (st : AppState) (createFails : Bool) : AppState :=
  if (st.status = ConnectionStatus.Connected ∨ st.status = ConnectionStatus.Connecting)
      ∧ st.wsRef.isSome then
    let st1 := { st with wsRef := none, status := ConnectionStatus.Disconnected }
    let st2 := st1.streamers.foldl
      (fun s p => modifyPC s p.2 (fun pc => { pc with closed := true })) st1
    let st3 := { st2 with streamers := [] }
    let st4 := updateStreamerIds st3
    log st4 "Manually disconnected from signaling server"
  else if st.status = ConnectionStatus.Connecting then st
  else
    let st1 := { st with status := ConnectionStatus.Connecting, timerArmed := true }
    if createFails then
      let st2 := { st1 with timerArmed := false }
      let st3 := log st2 "Error creating WebSocket: error"
      { st3 with status := ConnectionStatus.ConnectionError }
    else st1

/-- The socket's `onopen` closure: cancel the timeout, publish the handle,
status `Connected`. -/
def onopen (st : AppState) : AppState :=
  let st1 := { st with timerArmed := false, wsRef := some wsOPEN }
  let st2 := { st1 with status := ConnectionStatus.Connected }
  log st2 "Connected to signaling server"

/-- The socket's `onclose` closure: clear the handle, status
`Disconnected`.  (It does not touch the timer or the registry.) -/
def onclose (st : AppState) : AppState :=
  let st1 := { st with wsRef := none }
  let st2 := { st1 with status := ConnectionStatus.Disconnected }
  log st2 "Disconnected from signaling server"

/-- The socket's `onerror` closure: cancel the timeout, log, status
`ConnectionError`. -/
def onerror (st : AppState) : AppState :=
  let st1 := { st with timerArmed := false }
  let st2 := log st1 "WebSocket error: error"
  { st2 with status := ConnectionStatus.ConnectionError }

/-- The `setTimeout` callback: if the timer is still armed (not cleared by
`onopen`/`onerror`), log and set `ConnectionError`; a cleared or already
fired timer never fires again. -/
def ontimeout (st : AppState) : AppState :=
  if st.timerArmed then
    let st1 := { st with timerArmed := false }
    let st2 := log st1 "Connection timeout"
    { st2 with status := ConnectionStatus.ConnectionError }
  else st

/-- Lifecycle events a connect attempt's channel can deliver. -/
inductive ChanEvent where
  | opened
  | closedEv
  | errored
  | timeoutFired
deriving DecidableEq, Repr

/-- Dispatch one channel lifecycle event to its closure. -/
def chanStep (st : AppState) : ChanEvent → AppState
  | ChanEvent.opened => onopen st
  | ChanEvent.closedEv => onclose st
  | ChanEvent.errored => onerror st
  | ChanEvent.timeoutFired => ontimeout st

/-- Process a sequence of channel lifecycle events. -/
def runChanEvents (st : AppState) (es : List ChanEvent) : AppState :=
  es.foldl chanStep st

/-- How many events of the sequence change the status into
`ConnectionError` (a transition into the state, not a self-loop). -/
def countCETransitions (st : AppState) : List ChanEvent → Nat
  | [] => 0
  | e :: rest =>
      let st1 := chanStep st e
      (if st1.status = ConnectionStatus.ConnectionError
          ∧ ¬st.status = ConnectionStatus.ConnectionError then 1 else 0)
        + countCETransitions st1 rest

/-- Registry-affecting inbound messages for the C1 invariant: the
`new-streamer` / `streamer-disconnected` fragment of the protocol. -/
inductive RegMsg where
  | ns (streamerId : Nat)
  | sd (streamerId : Nat)
deriving DecidableEq, Repr

/-- View a registry message as a signaling envelope. -/
def RegMsg.toSignaling : RegMsg → SignalingMessage
  | RegMsg.ns s => SignalingMessage.newStreamer { streamer_id := s }
  | RegMsg.sd s => SignalingMessage.streamerDisconnected { streamer_id := s }

/-- Route a sequence of registry messages through the real dispatcher. -/
def processRegMsgs (st : AppState) (msgs : List RegMsg) : AppState :=
  msgs.foldl (fun s m => handleSignalingMessage s m.toSignaling none 0 false) st

/-- The registry's key set (as the list of keys). -/
def keys (st : AppState) : List Nat :=
  st.streamers.map Prod.fst

/-- The message `sd x` does not occur in the sequence. -/
def noDisconnect (x : Nat) (msgs : List RegMsg) : Prop :=
  RegMsg.sd x ∉ msgs

/-- Spec-side liveness: `x` was introduced — either it satisfied the
initial condition `P` and is never disconnected, or some `ns x` occurs and
is not followed by a matching `sd x`. -/
def liveFrom (P : Prop) (msgs : List RegMsg) (x : Nat) : Prop :=
  (P ∧ noDisconnect x msgs) ∨
    ∃ l r, msgs = l ++ RegMsg.ns x :: r ∧ noDisconnect x r

/-- Spec-side formalisation of C1's right-hand side: `x` was introduced by
the initial roster or a `new-streamer` message and not yet followed by a
matching `streamer-disconnected`. -/
def introducedNotRemoved (roster : List Nat) (msgs : List RegMsg) (x : Nat) : Prop :=
  liveFrom (x ∈ roster) msgs x

/-! ## Helper lemmas about the registry assoc-list operations and the heap -/

/-- Number of registry entries stored under key `k`. -/
def countKey (l : List (Nat × Nat)) (k : Nat) : Nat :=
  l.countP (fun p => p.1 == k)

theorem mapHas_iff_mem_map (l : List (Nat × Nat)) (k : Nat) :
    mapHas l k = true ↔ k ∈ l.map Prod.fst := by
  simp only [mapHas, List.any_eq_true, List.mem_map]
  constructor
  · rintro ⟨p, hp, he⟩
    exact ⟨p, hp, by simpa using (beq_iff_eq.mp he)⟩
  · rintro ⟨p, hp, he⟩
    exact ⟨p, hp, beq_iff_eq.mpr he⟩

theorem mapHas_eq_false_iff (l : List (Nat × Nat)) (k : Nat) :
    mapHas l k = false ↔ k ∉ l.map Prod.fst := by
  rw [← mapHas_iff_mem_map]
  cases h : mapHas l k <;> simp

theorem mapSet_of_not_has (l : List (Nat × Nat)) (k v : Nat)
    (h : mapHas l k = false) : mapSet l k v = l ++ [(k, v)] := by
  simp [mapSet, h]

theorem mapGet_some_has (l : List (Nat × Nat)) (k v : Nat)
    (h : mapGet l k = some v) : mapHas l k = true := by
  induction l with
  | nil => simp [mapGet, List.lookup] at h
  | cons p rest ih =>
      by_cases hk : k = p.1
      · simp [mapHas, hk]
      · have hb : (k == p.1) = false := by simp [hk]
        simp only [mapGet, List.lookup, hb] at h
        simp only [mapHas, List.any_cons, Bool.or_eq_true]
        exact Or.inr (ih h)

theorem mapGet_append_of_has (l l' : List (Nat × Nat)) (k : Nat)
    (h : mapHas l k = true) : mapGet (l ++ l') k = mapGet l k := by
  induction l with
  | nil => simp [mapHas] at h
  | cons p rest ih =>
      by_cases hk : k = p.1
      · have hb : (k == p.1) = true := by simp [hk]
        simp [mapGet, List.lookup, hb]
      · have hb : (k == p.1) = false := by simp [hk]
        simp only [List.cons_append, mapGet, List.lookup, hb]
        have hh : mapHas rest k = true := by
          simp only [mapHas, List.any_cons, Bool.or_eq_true] at h
          rcases h with h | h
          · exact absurd (beq_iff_eq.mp h).symm hk
          · exact h
        exact ih hh

theorem mapHas_mapDelete_self (l : List (Nat × Nat)) (k : Nat) :
    mapHas (mapDelete l k) k = false := by
  simp only [mapHas, mapDelete, List.any_eq_false]
  intro p hp
  rw [List.mem_filter] at hp
  simpa using hp.2

theorem mapGet_mapDelete_ne (l : List (Nat × Nat)) (k k' : Nat)
    (h : k' ≠ k) : mapGet (mapDelete l k) k' = mapGet l k' := by
  induction l with
  | nil => rfl
  | cons p rest ih =>
      by_cases hp : p.1 = k
      · have hb : (p.1 != k) = false := by simp [hp]
        have hb2 : (k' == p.1) = false := by simp [hp, h]
        simp only [mapDelete, List.filter_cons, hb, if_false, Bool.false_eq_true]
        have : mapGet (p :: rest) k' = mapGet rest k' := by
          simp only [mapGet, List.lookup, hb2]
        rw [this]
        exact ih
      · have hb : (p.1 != k) = true := by simp [hp]
        by_cases hk : k' = p.1
        · have hb2 : (k' == p.1) = true := by simp [hk]
          simp only [mapDelete, List.filter_cons, hb, if_true, mapGet, List.lookup, hb2]
        · have hb2 : (k' == p.1) = false := by simp [hk]
          simp only [mapDelete, List.filter_cons, hb, if_true, mapGet, List.lookup, hb2]
          exact ih

theorem listModify_get_self (l : List PC) (i : Nat) (f : PC → PC) :
    (listModify l i f).get? i = (l.get? i).map f := by
  induction l generalizing i with
  | nil => simp [listModify]
  | cons x xs ih =>
      cases i with
      | zero => simp [listModify]
      | succ n => simpa [listModify] using ih n

theorem listModify_get_ne (l : List PC) (i j : Nat) (f : PC → PC)
    (h : j ≠ i) : (listModify l i f).get? j = l.get? j := by
  induction l generalizing i j with
  | nil => simp [listModify]
  | cons x xs ih =>
      cases i with
      | zero =>
          cases j with
          | zero => exact absurd rfl h
          | succ m => simp [listModify]
      | succ n =>
          cases j with
          | zero => simp [listModify]
          | succ m => simpa [listModify] using ih n m (by omega)

theorem listModify_length (l : List PC) (i : Nat) (f : PC → PC) :
    (listModify l i f).length = l.length := by
  induction l generalizing i with
  | nil => rfl
  | cons x xs ih =>
      cases i with
      | zero => rfl
      | succ n => simpa [listModify] using ih n

/-! ## C9 — ordinary channel close: status and handle change, nothing else -/

/-- C9: on an ordinary (non-user-initiated) channel `close` event the
status becomes `Disconnected` and the channel handle is cleared, while the
Peer Registry keeps all its entries, no peer connection is closed (the
whole heap is untouched), and the UI snapshot, outbound wire, client id
and timer are unchanged. -/
theorem onclose_disconnects_without_teardown (st : AppState) :
    (onclose st).status = ConnectionStatus.Disconnected
  ∧ (onclose st).wsRef = none
  ∧ (onclose st).streamers = st.streamers
  ∧ (onclose st).pcs = st.pcs
  ∧ (∀ i, ((onclose st).pcs.get? i).map PC.closed = (st.pcs.get? i).map PC.closed)
  ∧ (onclose st).streamerIds = st.streamerIds
  ∧ (onclose st).sent = st.sent
  ∧ (onclose st).clientId = st.clientId
  ∧ (onclose st).timerArmed = st.timerArmed :=
  ⟨rfl, rfl, rfl, rfl, fun _ => rfl, rfl, rfl, rfl, rfl⟩

/-! ## C7 — upsert is idempotent -/

theorem mapHas_mapSet_self (l : List (Nat × Nat)) (k v : Nat) :
    mapHas (mapSet l k v) k = true := by
  unfold mapSet
  split
  · next h =>
      rcases List.any_eq_true.mp h with ⟨p, hp, he⟩
      refine List.any_eq_true.mpr ⟨(k, v), ?_, by simp⟩
      exact List.mem_map.mpr ⟨p, hp, by simp [he]⟩
  · simp [mapHas, List.any_append]

theorem mapHas_handleNewStreamer_self (st : AppState) (m : NewStreamerMessage) :
    mapHas (handleNewStreamer st m).streamers m.streamer_id = true := by
  simp only [handleNewStreamer]
  split
  · next h => exact h
  · next h =>
      dsimp only [updateStreamerIds]
      exact mapHas_mapSet_self _ _ _

theorem mapHas_connectUpsert_self (st : AppState) (s : Nat) :
    mapHas (connectUpsert st s).streamers s = true := by
  simp only [connectUpsert]
  split
  · next h => exact h
  · exact mapHas_mapSet_self _ _ _

/-- C7: `upsert` is idempotent.  Repeating a `new-streamer` message leaves
the state literally identical, repeating a roster entry's upsert inside
`handleConnectMessage` likewise, and after an upsert the registry holds
exactly one entry for the id whenever it held at most one before (in
particular exactly one fresh Peer Connection backs it, since the repeated
call allocates nothing — the states are equal). -/
theorem upsert_idempotent (st : AppState) (m : NewStreamerMessage) (s : Nat) :
    handleNewStreamer (handleNewStreamer st m) m = handleNewStreamer st m
  ∧ connectUpsert (connectUpsert st s) s = connectUpsert st s
  ∧ countKey (handleNewStreamer st m).streamers m.streamer_id
      = max (countKey st.streamers m.streamer_id) 1 := by
  refine ⟨?_, ?_, ?_⟩
  · have h := mapHas_handleNewStreamer_self st m
    rw [handleNewStreamer]
    simp [h]
  · have h := mapHas_connectUpsert_self st s
    rw [connectUpsert]
    simp [h]
  · simp only [handleNewStreamer]
    split
    · next h =>
        have hpos : 0 < countKey st.streamers m.streamer_id := by
          simp only [mapHas, List.any_eq_true] at h
          exact List.countP_pos_iff.mpr h
        omega
    · next h =>
        have hfalse : mapHas st.streamers m.streamer_id = false := by
          simpa using h
        have hz : countKey st.streamers m.streamer_id = 0 := by
          simp only [countKey]
          refine List.countP_eq_zero.mpr ?_
          intro p hp
          simp only [mapHas, List.any_eq_false] at hfalse
          simpa using hfalse p hp
        dsimp only [updateStreamerIds, log]
        simp only [countKey, mapSet_of_not_has _ _ _ hfalse, List.countP_append]
        simp only [countKey] at hz
        rw [hz]
        simp [List.countP_cons]

/-! ## C10 — repeated `connect` message: last id wins, peers preserved -/

theorem connectUpsert_clientId (st : AppState) (x : Nat) :
    (connectUpsert st x).clientId = st.clientId := by
  simp only [connectUpsert]
  split <;> rfl

theorem connectUpsert_pcs_get (st : AppState) (x i : Nat) (pc : PC)
    (h : st.pcs.get? i = some pc) : (connectUpsert st x).pcs.get? i = some pc := by
  simp only [connectUpsert]
  split
  · exact h
  · dsimp only [log]
    obtain ⟨hlt, -⟩ := List.get?_eq_some.mp h
    rw [List.get?_append hlt]
    exact h

theorem connectUpsert_mapHas_of_has (st : AppState) (x k : Nat)
    (h : mapHas st.streamers k = true) :
    mapHas (connectUpsert st x).streamers k = true := by
  simp only [connectUpsert]
  split
  · exact h
  · next hx =>
      dsimp only [log]
      rw [mapSet_of_not_has _ _ _ (by simpa using hx)]
      simp only [mapHas, List.any_append, Bool.or_eq_true]
      exact Or.inl h

theorem connectUpsert_mapGet_of_has (st : AppState) (x k : Nat)
    (h : mapHas st.streamers k = true) :
    mapGet (connectUpsert st x).streamers k = mapGet st.streamers k := by
  simp only [connectUpsert]
  split
  · rfl
  · next hx =>
      dsimp only [log]
      rw [mapSet_of_not_has _ _ _ (by simpa using hx)]
      exact mapGet_append_of_has _ _ _ h

theorem foldl_connectUpsert_clientId (xs : List Nat) (st : AppState) :
    (xs.foldl connectUpsert st).clientId = st.clientId := by
  induction xs generalizing st with
  | nil => rfl
  | cons a l ih => rw [List.foldl_cons, ih, connectUpsert_clientId]

theorem foldl_connectUpsert_pcs_get (xs : List Nat) (st : AppState) (i : Nat) (pc : PC)
    (h : st.pcs.get? i = some pc) :
    (xs.foldl connectUpsert st).pcs.get? i = some pc := by
  induction xs generalizing st with
  | nil => exact h
  | cons a l ih => exact ih _ (connectUpsert_pcs_get _ _ _ _ h)

theorem foldl_connectUpsert_mapGet (xs : List Nat) (st : AppState) (k : Nat)
    (h : mapHas st.streamers k = true) :
    mapGet (xs.foldl connectUpsert st).streamers k = mapGet st.streamers k := by
  induction xs generalizing st with
  | nil => rfl
  | cons a l ih =>
      rw [List.foldl_cons, ih _ (connectUpsert_mapHas_of_has _ _ _ h),
          connectUpsert_mapGet_of_has _ _ _ h]

/-- C10: every inbound `connect` message — a repeated one included —
unconditionally overwrites the stored client id with the id it carries
(last writer wins), while every peer entry already present keeps its
registry binding and its existing Peer Connection heap object. -/
theorem handleConnectMessage_overwrites_id_preserves_peers
    (st : AppState) (m : ConnectMessage) :
    (handleConnectMessage st m).clientId = m.id
  ∧ (∀ i pc, st.pcs.get? i = some pc →
      (handleConnectMessage st m).pcs.get? i = some pc)
  ∧ (∀ k, mapHas st.streamers k = true →
      mapGet (handleConnectMessage st m).streamers k = mapGet st.streamers k) := by
  refine ⟨?_, ?_, ?_⟩
  · dsimp only [handleConnectMessage, updateStreamerIds, log]
    exact foldl_connectUpsert_clientId _ _
  · intro i pc h
    dsimp only [handleConnectMessage, updateStreamerIds, log]
    exact foldl_connectUpsert_pcs_get _ _ _ _ h
  · intro k h
    dsimp only [handleConnectMessage, updateStreamerIds, log]
    exact foldl_connectUpsert_mapGet _ _ _ h

/-- A small concrete session: one known streamer (id 1, heap slot 0), an
open signaling channel. -/
def demoState : AppState :=
  { initialState with
      pcs := [newPeerConnection]
      streamers := [(1, 0)]
      streamerIds := [1]
      wsRef := some wsOPEN }

theorem handleConnectMessage_overwrites_id_preserves_peers_witness :
    (handleConnectMessage demoState { id := 9, streamers := [2] }).clientId = 9
  ∧ (handleConnectMessage demoState { id := 9, streamers := [2] }).pcs.get? 0
      = some newPeerConnection
  ∧ mapGet (handleConnectMessage demoState { id := 9, streamers := [2] }).streamers 1
      = mapGet demoState.streamers 1 := by
  obtain ⟨h1, h2, h3⟩ :=
    handleConnectMessage_overwrites_id_preserves_peers demoState { id := 9, streamers := [2] }
  exact ⟨h1, h2 0 newPeerConnection (by decide), h3 1 (by decide)⟩

/-! ## C6 — `remove` closes the peer connection before discarding -/

/-- C6: when the `streamer-disconnected` id is registered, its Peer
Connection heap object is closed and the registry entry discarded (other
registry entries and heap slots untouched); when the id is absent the
handler is the identity, producing no error. -/
theorem remove_closes_before_discard (st : AppState) (m : DisconnectedMessage)
    (i : Nat) (pc : PC) :
    (mapGet st.streamers m.streamer_id = some i → st.pcs.get? i = some pc →
       ((handleStreamerDisconnection st m).pcs.get? i = some { pc with closed := true }
      ∧ mapHas (handleStreamerDisconnection st m).streamers m.streamer_id = false
      ∧ (∀ k, k ≠ m.streamer_id →
          mapGet (handleStreamerDisconnection st m).streamers k = mapGet st.streamers k)
      ∧ (∀ j, j ≠ i → (handleStreamerDisconnection st m).pcs.get? j = st.pcs.get? j)))
  ∧ (mapHas st.streamers m.streamer_id = false → handleStreamerDisconnection st m = st) := by
  constructor
  · intro hget hpc
    have hhas := mapGet_some_has _ _ _ hget
    simp only [handleStreamerDisconnection, hhas, if_true, hget]
    refine ⟨?_, ?_, fun k hk => ?_, fun j hj => ?_⟩
    · dsimp only [log, updateStreamerIds, modifyPC]
      rw [listModify_get_self, hpc]
      rfl
    · dsimp only [log, updateStreamerIds, modifyPC]
      exact mapHas_mapDelete_self _ _
    · dsimp only [log, updateStreamerIds, modifyPC]
      exact mapGet_mapDelete_ne _ _ _ hk
    · dsimp only [log, updateStreamerIds, modifyPC]
      exact listModify_get_ne _ _ _ _ hj
  · intro h
    simp [handleStreamerDisconnection, h]

theorem remove_closes_before_discard_witness :
    (handleStreamerDisconnection demoState { streamer_id := 1 }).pcs.get? 0
      = some { newPeerConnection with closed := true }
  ∧ mapHas (handleStreamerDisconnection demoState { streamer_id := 1 }).streamers 1 = false
  ∧ handleStreamerDisconnection demoState { streamer_id := 2 } = demoState := by
  obtain ⟨h1, h2, -, -⟩ :=
    (remove_closes_before_discard demoState { streamer_id := 1 } 0 newPeerConnection).1
      (by decide) (by decide)
  exact ⟨h1, h2,
    (remove_closes_before_discard demoState { streamer_id := 2 } 0 newPeerConnection).2
      (by decide)⟩

/-! ## C3 — connect() toggles while Connected, no-op while Connecting -/

theorem closeFold_eq (l : List (Nat × Nat)) (st : AppState) :
    l.foldl (fun s p => modifyPC s p.2 (fun pc => { pc with closed := true })) st
      = { st with
            pcs := l.foldl
              (fun a p => listModify a p.2 (fun pc => { pc with closed := true }))
              st.pcs } := by
  induction l generalizing st with
  | nil => rfl
  | cons q l ih =>
      rw [List.foldl_cons, List.foldl_cons, ih]
      rfl

theorem closeFoldPcs_get_not_mem (l : List (Nat × Nat)) (pcs : List PC) (j : Nat)
    (hj : ∀ p ∈ l, p.2 ≠ j) :
    (l.foldl (fun a p => listModify a p.2 (fun pc => { pc with closed := true })) pcs).get? j
      = pcs.get? j := by
  induction l generalizing pcs with
  | nil => rfl
  | cons q l ih =>
      rw [List.foldl_cons, ih _ (fun p hp => hj p (List.mem_cons_of_mem _ hp)),
          listModify_get_ne _ _ _ _ (Ne.symm (hj q (List.mem_cons_self _ _)))]

theorem closeFoldPcs_get_mem (l : List (Nat × Nat)) (pcs : List PC) (j : Nat)
    (hj : ∃ p ∈ l, p.2 = j) :
    (l.foldl (fun a p => listModify a p.2 (fun pc => { pc with closed := true })) pcs).get? j
      = (pcs.get? j).map (fun pc => { pc with closed := true }) := by
  induction l generalizing pcs with
  | nil =>
      rcases hj with ⟨p, hp, -⟩
      cases hp
  | cons q l ih =>
      rw [List.foldl_cons]
      by_cases hq : q.2 = j
      · subst hq
        by_cases hmem : ∃ p ∈ l, p.2 = q.2
        · rw [ih _ hmem, listModify_get_self]
          cases pcs.get? q.2 <;> rfl
        · push_neg at hmem
          rw [closeFoldPcs_get_not_mem _ _ _ hmem, listModify_get_self]
      · rcases hj with ⟨p, hp, hpj⟩
        rcases List.mem_cons.mp hp with rfl | hp'
        · exact absurd hpj hq
        · rw [ih _ ⟨p, hp', hpj⟩, listModify_get_ne _ _ _ _ (fun h => hq h.symm)]

/-- C3: invoking `handleConnect` while the status is `Connected` (the
channel handle is then published) performs a disconnect — handle cleared,
status `Disconnected`, registry emptied, and every registered Peer
Connection closed; invoking it while `Connecting` (no handle published
yet) changes nothing at all. -/
theorem connect_toggles_when_connected (st : AppState) (cf : Bool) :
    (st.status = ConnectionStatus.Connected → st.wsRef.isSome = true →
       ((handleConnect st cf).status = ConnectionStatus.Disconnected
      ∧ (handleConnect st cf).wsRef = none
      ∧ (handleConnect st cf).streamers = []
      ∧ ∀ p ∈ st.streamers, ∀ pc, st.pcs.get? p.2 = some pc →
          (handleConnect st cf).pcs.get? p.2 = some { pc with closed := true }))
  ∧ (st.status = ConnectionStatus.Connecting → st.wsRef = none →
       handleConnect st cf = st) := by
  constructor
  · intro hst hws
    have hcond : (st.status = ConnectionStatus.Connected
          ∨ st.status = ConnectionStatus.Connecting)
        ∧ st.wsRef.isSome = true := ⟨Or.inl hst, hws⟩
    rw [handleConnect, if_pos hcond]
    dsimp only [log, updateStreamerIds]
    rw [closeFold_eq]
    refine ⟨rfl, rfl, rfl, ?_⟩
    intro p hp pc hpc
    dsimp only
    rw [closeFoldPcs_get_mem _ _ _ ⟨p, hp, rfl⟩, hpc]
    rfl
  · intro hst hws
    simp [handleConnect, hst, hws]

theorem connect_toggles_when_connected_witness :
    ((handleConnect { demoState with status := ConnectionStatus.Connected } false).status
        = ConnectionStatus.Disconnected
      ∧ (handleConnect { demoState with status := ConnectionStatus.Connected } false).streamers
        = []
      ∧ (handleConnect { demoState with status := ConnectionStatus.Connected } false).pcs.get? 0
        = some { newPeerConnection with closed := true })
  ∧ handleConnect { demoState with wsRef := none, status := ConnectionStatus.Connecting } false
      = { demoState with wsRef := none, status := ConnectionStatus.Connecting } := by
  obtain ⟨h1, h2⟩ :=
    connect_toggles_when_connected { demoState with status := ConnectionStatus.Connected } false
  obtain ⟨ha, -, hc, hd⟩ := h1 rfl (by decide)
  refine ⟨⟨ha, hc, hd (1, 0) (by decide) newPeerConnection (by decide)⟩, ?_⟩
  exact (connect_toggles_when_connected
    { demoState with wsRef := none, status := ConnectionStatus.Connecting } false).2 rfl rfl

/-! ## C4 — unknown-sender offer / ice-candidate: log entry, no side effects -/

/-- C4: an inbound `offer` or `ice-candidate` whose sender is not in the
registry produces a log entry (the offer handler writes to the UI log
feed, the ice-candidate handler traces to the console) and has zero side
effects: registry, heap (hence every peer's negotiation state), session
status, outbound wire and client id are all unchanged, and the handlers
are total functions — nothing escapes the router. -/
theorem unknown_sender_is_dropped (st : AppState) (om : OfferMessage)
    (cm : CandidateMessage) (ofail : Option OfferStep) (ans : Nat) (ifail : Bool) :
    (mapHas st.streamers om.sender = false →
       ((handleOffer st om ofail ans).streamers = st.streamers
      ∧ (handleOffer st om ofail ans).pcs = st.pcs
      ∧ (handleOffer st om ofail ans).status = st.status
      ∧ (handleOffer st om ofail ans).sent = st.sent
      ∧ (handleOffer st om ofail ans).clientId = st.clientId
      ∧ (handleOffer st om ofail ans).wsRef = st.wsRef
      ∧ (handleOffer st om ofail ans).logs
          = st.logs ++ ["Offer received from streamer " ++ toString om.sender,
                        "Received offer from unknown streamer " ++ toString om.sender]))
  ∧ (mapHas st.streamers cm.sender = false →
       ((handleIceCandidate st cm ifail).streamers = st.streamers
      ∧ (handleIceCandidate st cm ifail).pcs = st.pcs
      ∧ (handleIceCandidate st cm ifail).status = st.status
      ∧ (handleIceCandidate st cm ifail).sent = st.sent
      ∧ (handleIceCandidate st cm ifail).clientId = st.clientId
      ∧ (handleIceCandidate st cm ifail).logs = st.logs
      ∧ (handleIceCandidate st cm ifail).console
          = st.console
              ++ ["Received ICE candidate for unknown streamer " ++ toString cm.sender])) := by
  constructor
  · intro h
    simp [handleOffer, log, consoleLog, h]
  · intro h
    simp [handleIceCandidate, consoleLog, h]

theorem unknown_sender_is_dropped_witness :
    (handleOffer initialState { sdp := 5, sender := 3 } none 0).streamers = []
  ∧ (handleOffer initialState { sdp := 5, sender := 3 } none 0).logs
      = ["Offer received from streamer 3", "Received offer from unknown streamer 3"]
  ∧ (handleIceCandidate initialState { candidate := 4, sender := 3 } false).logs = []
  ∧ (handleIceCandidate initialState { candidate := 4, sender := 3 } false).console
      = ["Received ICE candidate for unknown streamer 3"] := by
  obtain ⟨h1, h2⟩ := unknown_sender_is_dropped initialState { sdp := 5, sender := 3 }
    { candidate := 4, sender := 3 } none 0 false
  obtain ⟨ha, -, -, -, -, -, hg⟩ := h1 (by decide)
  obtain ⟨-, -, -, -, -, hf, hh⟩ := h2 (by decide)
  exact ⟨ha, by simpa using hg, by simpa using hf, by simpa using hh⟩

/-! ## C8 — connect timeout fires: exactly one ConnectionError transition -/

/-- C8: when neither the open nor the error event arrives within the
timeout window (the armed timer fires first), the status transitions into
`ConnectionError` exactly once over the whole trace, with no duplicate
transition even if an open or error event is delivered after the timeout
has fired (a late error merely re-sets the already-current status; a late
open transitions to `Connected`, not to `ConnectionError`). -/
theorem timeout_fires_single_error_transition (st : AppState) (late : List ChanEvent)
    (hst : st.status = ConnectionStatus.Connecting)
    (harm : st.timerArmed = true)
    (hlate : late = [] ∨ late = [ChanEvent.opened] ∨ late = [ChanEvent.errored]) :
    countCETransitions st (ChanEvent.timeoutFired :: late) = 1 := by
  rcases hlate with rfl | rfl | rfl <;>
    simp [countCETransitions, chanStep, ontimeout, onopen, onerror, log, harm, hst]

theorem timeout_fires_single_error_transition_witness :
    countCETransitions
      { demoState with status := ConnectionStatus.Connecting, timerArmed := true }
      [ChanEvent.timeoutFired, ChanEvent.errored] = 1 :=
  timeout_fires_single_error_transition
    { demoState with status := ConnectionStatus.Connecting, timerArmed := true }
    [ChanEvent.errored] rfl rfl (Or.inr (Or.inr rfl))

/-! ## C2 — listener registration is NOT guarded: a code bug -/

/-- C2 (refuted — code bug): the code does not maintain at-most-once
listener registration.  `handleOffer` attaches all three listeners
unconditionally on every offer, and `sendSubscribe`'s guard reads the
nonstandard `pc.eventListeners` property that nothing ever assigns, so the
guard always sees an empty flag set and re-attaches as well.  After two
offers (or two subscribes) from the same registered streamer the
icecandidate listener is registered twice, and the flag set is still
unset (`none`). -/
theorem listener_registration_not_guarded :
    ((handleOffer (handleOffer demoState { sdp := 5, sender := 1 } none 0)
        { sdp := 5, sender := 1 } none 0).pcs.get? 0).map PC.iceListeners = some 2
  ∧ ((sendSubscribe (sendSubscribe demoState 1) 1).pcs.get? 0).map PC.iceListeners = some 2
  ∧ ((handleOffer (handleOffer demoState { sdp := 5, sender := 1 } none 0)
        { sdp := 5, sender := 1 } none 0).pcs.get? 0).map PC.eventListeners
      = some none :=
  ⟨by decide, by decide, by decide⟩

/-! ## C5 — offer for a known sender: ordering, failure containment -/

/-- C5 (as stated — refuted): a failure in the middle of the negotiation
sequence is caught, but it does not leave the peer entry in its prior
state: with `createAnswer` throwing, the entry's remote description has
already been applied and the three listeners have been attached, while
before the offer the entry had no remote description and no listeners. -/
theorem offer_failure_leaves_partial_mutation :
    ((demoState.pcs.get? 0).map PC.remoteDesc = some none
  ∧ (demoState.pcs.get? 0).map PC.iceListeners = some 0)
  ∧ (((handleOffer demoState { sdp := 5, sender := 1 }
        (some OfferStep.createAnswerStep) 9).pcs.get? 0).map PC.remoteDesc
      = some (some 5)
  ∧ ((handleOffer demoState { sdp := 5, sender := 1 }
        (some OfferStep.createAnswerStep) 9).pcs.get? 0).map PC.iceListeners = some 1
  ∧ (handleOffer demoState { sdp := 5, sender := 1 }
        (some OfferStep.createAnswerStep) 9).sent = demoState.sent) :=
  ⟨⟨by decide, by decide⟩, by decide, by decide, by decide⟩

/-- C5 (amended): for an `offer` whose sender is registered (channel
open), a fully successful run applies the remote offer, creates and
applies the local answer and appends exactly one `answer` message targeted
at the sender; any failing step is caught — nothing is sent, the registry,
session status, channel handle and all other heap slots are untouched —
and the entry keeps exactly the mutations of the steps already completed
(listeners attached; the remote description too unless the very first
awaited step threw), rather than reverting to its prior state.  The
cascade of the three failure cases witnesses the order
remote-description → create-answer → local-description → send. -/
theorem handleOffer_known_sender (st : AppState) (m : OfferMessage)
    (fail : Option OfferStep) (ans i : Nat) (pc : PC)
    (hget : mapGet st.streamers m.sender = some i)
    (hpc : st.pcs.get? i = some pc)
    (hws : st.wsRef = some wsOPEN) :
    (handleOffer st m fail ans).streamers = st.streamers
  ∧ (handleOffer st m fail ans).status = st.status
  ∧ (handleOffer st m fail ans).wsRef = st.wsRef
  ∧ (∀ j, j ≠ i → (handleOffer st m fail ans).pcs.get? j = st.pcs.get? j)
  ∧ (fail = none →
       (handleOffer st m fail ans).pcs.get? i
         = some { pc with iceListeners := pc.iceListeners + 1
                          cscListeners := pc.cscListeners + 1
                          trackListeners := pc.trackListeners + 1
                          remoteDesc := some m.sdp
                          localDesc := some ans }
     ∧ (handleOffer st m fail ans).sent
         = st.sent ++ [{ target := m.sender, data := OutData.answer ans }])
  ∧ (fail = some OfferStep.remoteDescStep →
       (handleOffer st m fail ans).pcs.get? i
         = some { pc with iceListeners := pc.iceListeners + 1
                          cscListeners := pc.cscListeners + 1
                          trackListeners := pc.trackListeners + 1 }
     ∧ (handleOffer st m fail ans).sent = st.sent)
  ∧ ((fail = some OfferStep.createAnswerStep ∨ fail = some OfferStep.localDescStep) →
       (handleOffer st m fail ans).pcs.get? i
         = some { pc with iceListeners := pc.iceListeners + 1
                          cscListeners := pc.cscListeners + 1
                          trackListeners := pc.trackListeners + 1
                          remoteDesc := some m.sdp }
     ∧ (handleOffer st m fail ans).sent = st.sent) := by
  have hhas : mapHas st.streamers m.sender = true := mapGet_some_has _ _ _ hget
  rcases fail with _ | step
  · rw [handleOffer]
    dsimp only [log, consoleLog, modifyPC]
    rw [hhas, if_pos rfl, hget]
    dsimp only [sendToPeer]
    rw [hws]
    dsimp only
    rw [if_pos rfl]
    refine ⟨rfl, rfl, rfl, fun j hj => ?_, fun _ => ⟨?_, rfl⟩,
      fun h => Option.noConfusion h, fun h => ?_⟩
    · rw [listModify_get_ne _ _ _ _ hj, listModify_get_ne _ _ _ _ hj,
          listModify_get_ne _ _ _ _ hj, listModify_get_ne _ _ _ _ hj,
          listModify_get_ne _ _ _ _ hj]
    · rw [listModify_get_self, listModify_get_self, listModify_get_self,
          listModify_get_self, listModify_get_self, hpc]
      rfl
    · rcases h with h | h <;> exact Option.noConfusion h
  · cases step
    · rw [handleOffer]
      dsimp only [log, consoleLog, modifyPC]
      rw [hhas, if_pos rfl, hget]
      dsimp only
      refine ⟨rfl, rfl, rfl, fun j hj => ?_, fun h => Option.noConfusion h,
        fun _ => ⟨?_, rfl⟩, fun h => ?_⟩
      · rw [listModify_get_ne _ _ _ _ hj, listModify_get_ne _ _ _ _ hj,
            listModify_get_ne _ _ _ _ hj]
      · rw [listModify_get_self, listModify_get_self, listModify_get_self, hpc]
        rfl
      · rcases h with h | h <;>
          exact OfferStep.noConfusion (Option.some.inj h)
    · rw [handleOffer]
      dsimp only [log, consoleLog, modifyPC]
      rw [hhas, if_pos rfl, hget]
      dsimp only
      refine ⟨rfl, rfl, rfl, fun j hj => ?_, fun h => Option.noConfusion h,
        fun h => OfferStep.noConfusion (Option.some.inj h), fun _ => ⟨?_, rfl⟩⟩
      · rw [listModify_get_ne _ _ _ _ hj, listModify_get_ne _ _ _ _ hj,
            listModify_get_ne _ _ _ _ hj, listModify_get_ne _ _ _ _ hj]
      · rw [listModify_get_self, listModify_get_self, listModify_get_self,
            listModify_get_self, hpc]
        rfl
    · rw [handleOffer]
      dsimp only [log, consoleLog, modifyPC]
      rw [hhas, if_pos rfl, hget]
      dsimp only
      refine ⟨rfl, rfl, rfl, fun j hj => ?_, fun h => Option.noConfusion h,
        fun h => OfferStep.noConfusion (Option.some.inj h), fun _ => ⟨?_, rfl⟩⟩
      · rw [listModify_get_ne _ _ _ _ hj, listModify_get_ne _ _ _ _ hj,
            listModify_get_ne _ _ _ _ hj, listModify_get_ne _ _ _ _ hj]
      · rw [listModify_get_self, listModify_get_self, listModify_get_self,
            listModify_get_self, hpc]
        rfl

theorem handleOffer_known_sender_witness :
    (handleOffer demoState { sdp := 5, sender := 1 } none 9).sent
      = demoState.sent ++ [{ target := 1, data := OutData.answer 9 }]
  ∧ (handleOffer demoState { sdp := 5, sender := 1 } none 9).pcs.get? 0
      = some { newPeerConnection with iceListeners := 1, cscListeners := 1,
                                      trackListeners := 1, remoteDesc := some 5,
                                      localDesc := some 9 } := by
  obtain ⟨-, -, -, -, hnone, -, -⟩ :=
    handleOffer_known_sender demoState { sdp := 5, sender := 1 } none 9 0
      newPeerConnection (by decide) (by decide) (by decide)
  obtain ⟨hpc, hsent⟩ := hnone rfl
  exact ⟨hsent, by simpa using hpc⟩

/-! ## C1 — registry keys track live streamers -/

theorem mem_map_fst_mapDelete (l : List (Nat × Nat)) (k x : Nat) :
    x ∈ (mapDelete l k).map Prod.fst ↔ x ∈ l.map Prod.fst ∧ x ≠ k := by
  simp only [mapDelete, List.mem_map, List.mem_filter]
  constructor
  · rintro ⟨p, ⟨hp, hne⟩, rfl⟩
    exact ⟨⟨p, hp, rfl⟩, by simpa using hne⟩
  · rintro ⟨⟨p, hp, rfl⟩, hne⟩
    exact ⟨p, ⟨hp, by simpa using hne⟩, rfl⟩

theorem mem_keys_handleNewStreamer (st : AppState) (s x : Nat) :
    x ∈ keys (handleNewStreamer st { streamer_id := s })
      ↔ x ∈ keys st ∨ x = s := by
  simp only [handleNewStreamer]
  split
  · next h =>
      constructor
      · exact Or.inl
      · rintro (hx | rfl)
        · exact hx
        · exact (mapHas_iff_mem_map _ _).mp h
  · next h =>
      have hf : mapHas st.streamers s = false := by simpa using h
      dsimp only [keys, updateStreamerIds, log]
      rw [mapSet_of_not_has _ _ _ hf]
      simp [keys]

theorem mem_keys_handleStreamerDisconnection (st : AppState) (s x : Nat) :
    x ∈ keys (handleStreamerDisconnection st { streamer_id := s })
      ↔ x ∈ keys st ∧ x ≠ s := by
  simp only [handleStreamerDisconnection]
  split
  · next h =>
      cases hg : mapGet st.streamers s with
      | none =>
          simp only [hg]
          dsimp only [keys, updateStreamerIds, log]
          exact mem_map_fst_mapDelete _ _ _
      | some i =>
          simp only [hg]
          dsimp only [keys, updateStreamerIds, log, modifyPC]
          exact mem_map_fst_mapDelete _ _ _
  · next h =>
      have hf : s ∉ st.streamers.map Prod.fst :=
        (mapHas_eq_false_iff _ _).mp (by simpa using h)
      constructor
      · intro hx
        refine ⟨hx, ?_⟩
        rintro rfl
        exact hf hx
      · exact And.left

theorem mem_keys_step_ns (st : AppState) (s x : Nat) :
    x ∈ keys (handleSignalingMessage st (RegMsg.ns s).toSignaling none 0 false)
      ↔ x ∈ keys st ∨ x = s := by
  have h := mem_keys_handleNewStreamer
    (consoleLog (consoleLog st "Received message:") "Current streamers:") s x
  simpa [handleSignalingMessage, RegMsg.toSignaling, keys, consoleLog] using h

theorem mem_keys_step_sd (st : AppState) (s x : Nat) :
    x ∈ keys (handleSignalingMessage st (RegMsg.sd s).toSignaling none 0 false)
      ↔ x ∈ keys st ∧ x ≠ s := by
  have h := mem_keys_handleStreamerDisconnection
    (consoleLog (consoleLog st "Received message:") "Current streamers:") s x
  simpa [handleSignalingMessage, RegMsg.toSignaling, keys, consoleLog] using h

theorem liveFrom_nil (P : Prop) (x : Nat) : liveFrom P [] x ↔ P := by
  constructor
  · rintro (⟨hP, -⟩ | ⟨l, r, h, -⟩)
    · exact hP
    · exact absurd h (by cases l <;> simp)
  · intro hP
    exact Or.inl ⟨hP, by simp [noDisconnect]⟩

theorem liveFrom_congr (P Q : Prop) (h : P ↔ Q) (msgs : List RegMsg) (x : Nat) :
    liveFrom P msgs x ↔ liveFrom Q msgs x := by
  unfold liveFrom
  rw [h]

theorem liveFrom_cons_ns (P : Prop) (s : Nat) (msgs : List RegMsg) (x : Nat) :
    liveFrom P (RegMsg.ns s :: msgs) x ↔ liveFrom (P ∨ x = s) msgs x := by
  unfold liveFrom noDisconnect
  constructor
  · rintro (⟨hP, hnd⟩ | ⟨l, r, heq, hnd⟩)
    · exact Or.inl ⟨Or.inl hP, fun hm => hnd (List.mem_cons_of_mem _ hm)⟩
    · cases l with
      | nil =>
          rw [List.nil_append] at heq
          injection heq with h1 h2
          subst h2
          exact Or.inl ⟨Or.inr (RegMsg.ns.inj h1).symm, hnd⟩
      | cons a l' =>
          rw [List.cons_append] at heq
          injection heq with h1 h2
          exact Or.inr ⟨l', r, h2, hnd⟩
  · rintro (⟨hP | hx, hnd⟩ | ⟨l, r, heq, hnd⟩)
    · refine Or.inl ⟨hP, fun hm => ?_⟩
      rcases List.mem_cons.mp hm with h | h
      · exact RegMsg.noConfusion h
      · exact hnd h
    · subst hx
      exact Or.inr ⟨[], msgs, rfl, hnd⟩
    · exact Or.inr ⟨RegMsg.ns s :: l, r, by rw [heq, List.cons_append], hnd⟩

theorem liveFrom_cons_sd (P : Prop) (s : Nat) (msgs : List RegMsg) (x : Nat) :
    liveFrom P (RegMsg.sd s :: msgs) x ↔ liveFrom (P ∧ x ≠ s) msgs x := by
  unfold liveFrom noDisconnect
  constructor
  · rintro (⟨hP, hnd⟩ | ⟨l, r, heq, hnd⟩)
    · have hxs : x ≠ s := by
        rintro rfl
        exact hnd (List.mem_cons_self _ _)
      exact Or.inl ⟨⟨hP, hxs⟩, fun hm => hnd (List.mem_cons_of_mem _ hm)⟩
    · cases l with
      | nil =>
          rw [List.nil_append] at heq
          injection heq with h1 h2
          exact RegMsg.noConfusion h1
      | cons a l' =>
          rw [List.cons_append] at heq
          injection heq with h1 h2
          exact Or.inr ⟨l', r, h2, hnd⟩
  · rintro (⟨⟨hP, hxs⟩, hnd⟩ | ⟨l, r, heq, hnd⟩)
    · refine Or.inl ⟨hP, fun hm => ?_⟩
      rcases List.mem_cons.mp hm with h | h
      · exact hxs (RegMsg.sd.inj h)
      · exact hnd h
    · exact Or.inr ⟨RegMsg.sd s :: l, r, by rw [heq, List.cons_append], hnd⟩

theorem processRegMsgs_keys (msgs : List RegMsg) (st : AppState) (x : Nat) :
    x ∈ keys (processRegMsgs st msgs) ↔ liveFrom (x ∈ keys st) msgs x := by
  induction msgs generalizing st with
  | nil => exact (liveFrom_nil _ _).symm
  | cons m rest ih =>
      have hfold : processRegMsgs st (m :: rest)
          = processRegMsgs (handleSignalingMessage st m.toSignaling none 0 false) rest := by
        rw [processRegMsgs, processRegMsgs, List.foldl_cons]
      rw [hfold, ih]
      cases m with
      | ns s =>
          rw [liveFrom_cons_ns]
          exact liveFrom_congr _ _ (mem_keys_step_ns st s x) rest x
      | sd s =>
          rw [liveFrom_cons_sd]
          exact liveFrom_congr _ _ (mem_keys_step_sd st s x) rest x

theorem mem_keys_connectUpsert (st : AppState) (s x : Nat) :
    x ∈ keys (connectUpsert st s) ↔ x ∈ keys st ∨ x = s := by
  simp only [connectUpsert]
  split
  · next h =>
      constructor
      · exact Or.inl
      · rintro (hx | rfl)
        · exact hx
        · exact (mapHas_iff_mem_map _ _).mp h
  · next h =>
      have hf : mapHas st.streamers s = false := by simpa using h
      dsimp only [keys, log]
      rw [mapSet_of_not_has _ _ _ hf]
      simp [keys]

theorem mem_keys_foldl_connectUpsert (l : List Nat) (st : AppState) (x : Nat) :
    x ∈ keys (l.foldl connectUpsert st) ↔ x ∈ keys st ∨ x ∈ l := by
  induction l generalizing st with
  | nil => simp
  | cons a l ih =>
      rw [List.foldl_cons, ih, mem_keys_connectUpsert]
      simp only [List.mem_cons]
      tauto

theorem keys_handleConnectMessage_initial (roster : List Nat) (cid x : Nat) :
    x ∈ keys (handleConnectMessage initialState { id := cid, streamers := roster })
      ↔ x ∈ roster := by
  have h := mem_keys_foldl_connectUpsert roster
    { initialState with clientId := cid } x
  simpa [handleConnectMessage, updateStreamerIds, log, keys, initialState] using h

/-- C1: starting from the roster delivered by `connect`, after any
sequence of `new-streamer` / `streamer-disconnected` messages the Peer
Registry's key set contains exactly the streamer ids introduced by the
initial roster or a `new-streamer` message and not yet followed by a
matching `streamer-disconnected`. -/
theorem registry_keys_track_live_streamers (roster : List Nat) (cid : Nat)
    (msgs : List RegMsg) (x : Nat) :
    x ∈ keys (processRegMsgs
        (handleConnectMessage initialState { id := cid, streamers := roster }) msgs)
      ↔ introducedNotRemoved roster msgs x := by
  rw [processRegMsgs_keys]
  exact liveFrom_congr _ _ (keys_handleConnectMessage_initial roster cid x) msgs x

end WebRTCClient
